import Mathlib

/-
Verification development for the wicked DHCPv4 link-layer transport
(src/dhcp/socket-linux.c).  The packet codec, the checksum primitives, the
BPF classifier programs and the adapter state machines are embedded as
executable Lean definitions over byte lists (network byte order); the
claims of the specification are settled as theorems about them.
-/

set_option maxRecDepth 100000

namespace Wicked

/-! ## Constants (from the C headers used by socket-linux.c) -/

def ETHERTYPE_IP : Nat := 0x0800
def ETHERTYPE_ARP : Nat := 0x0806
def IPPROTO_UDP : Nat := 17
def DHCP_CLIENT_PORT : Nat := 68
def DHCP_SERVER_PORT : Nat := 67
def ARPOP_REPLY : Nat := 2
def ETH_HLEN : Nat := 14
def IPDEFTTL : Nat := 64
def IPTOS_LOWDELAY : Nat := 0x10

/-- A byte list is well formed when every entry fits in an octet. -/
def bytesWF (l : List Nat) : Prop := ∀ b ∈ l, b < 256

/-! ## Checksum primitives (checksum_partial / checksum_fold / checksum /
ipudp_checksum).  The C accumulates 16-bit words of the buffer into a
uint32; the embedding reads the words in network byte order, which is the
consistent byte-order reading of the same algorithm.  A trailing odd byte
is shifted into the high half of a word, as in the C. -/

def checksum_partial_sum (sum : Nat) : List Nat → Nat
  | b0 :: b1 :: rest => checksum_partial_sum (sum + (b0 * 256 + b1)) rest
  | [b] => sum + b * 256
  | [] => sum

def checksum_fold (sum : Nat) : Nat :=
  let s := sum % 4294967296
  let s1 := s / 65536 + s % 65536
  let s2 := s1 + s1 / 65536
  65535 - s2 % 65536

def checksum (data : List Nat) : Nat :=
  checksum_fold (checksum_partial_sum 0 data)

/-- The 12-byte pseudo header built by ipudp_checksum: source address,
destination address, a zero byte, the IP protocol and the UDP length
field copied from the UDP header. -/
def fake_header (iph uh : List Nat) : List Nat :=
  (iph.drop 12).take 4 ++ (iph.drop 16).take 4 ++ [0, iph.getD 9 0] ++
    (uh.drop 4).take 2

/-- ipudp_checksum: fold of the partial sums of the pseudo header, the UDP
header and the payload.  The C passes the payload length through a
uint16_t parameter, hence the truncation of the processed span. -/
def ipudp_checksum (iph uh payload : List Nat) : Nat :=
  checksum_fold (checksum_partial_sum
    (checksum_partial_sum (checksum_partial_sum 0 (fake_header iph uh)) uh)
    (payload.take (payload.length % 65536)))

/-! ## Header codec -/

/-- Big-endian encoding of a 16-bit field, as htons stores it. -/
def encode16 (n : Nat) : List Nat := [n % 65536 / 256, n % 256]

/-- ni_dhcp_build_send_header: prepend a UDP header (sport 68, dport 67,
length covering header+payload, checksum initially zero) and an IPv4
header (version 4, IHL 5, TOS low-delay, ID 0, DF set, default TTL,
protocol UDP, destination coerced to limited broadcast when 0.0.0.0),
then store the IP header checksum and the UDP checksum. -/
def ni_dhcp_build_send_header (payload src dst : List Nat) : List Nat :=
  let udp_len := payload.length + 8
  let udp0 := encode16 DHCP_CLIENT_PORT ++ encode16 DHCP_SERVER_PORT ++
    encode16 udp_len ++ [0, 0]
  let dst2 := if dst = [0, 0, 0, 0] then [255, 255, 255, 255] else dst
  let ip0 := [0x45, IPTOS_LOWDELAY] ++ encode16 (20 + udp_len) ++ [0, 0] ++
    [0x40, 0] ++ [IPDEFTTL, IPPROTO_UDP] ++ [0, 0] ++ src ++ dst2
  let ip1 := [0x45, IPTOS_LOWDELAY] ++ encode16 (20 + udp_len) ++ [0, 0] ++
    [0x40, 0] ++ [IPDEFTTL, IPPROTO_UDP] ++ encode16 (checksum ip0) ++
    src ++ dst2
  let udp1 := encode16 DHCP_CLIENT_PORT ++ encode16 DHCP_SERVER_PORT ++
    encode16 udp_len ++ encode16 (ipudp_checksum ip1 udp0 payload)
  ip1 ++ udp1 ++ payload

/-- check_packet_header: the ingress validation pipeline.  Returns the
bytes after the IP and UDP headers paired with the value the C stores in
the payload_len out-parameter (ntohs of the IP total length field), or
none for a drop. -/
def check_packet_header (data : List Nat) : Option (List Nat × Nat) :=
  if data.getD 0 0 / 16 ≠ 4 ∨ data.getD 0 0 % 16 * 4 < 20 then none
  else if data.length < data.getD 0 0 % 16 * 4 then none
  else if checksum (data.take (data.getD 0 0 % 16 * 4)) ≠ 0 then none
  else if data.length < data.getD 2 0 * 256 + data.getD 3 0 then none
  else if data.getD 9 0 ≠ IPPROTO_UDP then none
  else if data.length - data.getD 0 0 % 16 * 4 < 8 then none
  else if ipudp_checksum (data.take (data.getD 0 0 % 16 * 4))
      ((data.drop (data.getD 0 0 % 16 * 4)).take 8)
      (data.drop (data.getD 0 0 % 16 * 4 + 8)) ≠ 0 then none
  else some (data.drop (data.getD 0 0 % 16 * 4 + 8),
    data.getD 2 0 * 256 + data.getD 3 0)

/-- Flip bit k of the byte at position i. -/
def flip_bit (l : List Nat) (i k : Nat) : List Nat :=
  l.set i (l.getD i 0 ^^^ 2 ^ k)

/-- Contribution factor of the byte at position i to the 16-bit word sum:
256 for a high (even-position) byte, 1 for a low byte. -/
def weight (i : Nat) : Nat := if i % 2 = 0 then 256 else 1

/-- A concrete 44-byte frame accepted by check_packet_header, used as a
test vector: IHL 5, total length 44, protocol UDP, both checksums valid. -/
def frame44 : List Nat :=
  [0x45, 0x00, 0x00, 0x2C, 0, 0, 0, 0, 0x40, 0x11, 0x7A, 0xC2,
   0, 0, 0, 0, 0, 0, 0, 0,
   0xFD, 0xFF, 0, 0, 0, 0, 0, 0,
   0x03, 0xEF, 0, 0, 0xFD, 0xFF, 0, 0,
   0, 0, 0, 0, 0, 0, 0, 0]

/-! ## BPF classifier programs and their semantics -/

inductive BpfOp where
  | ldh_abs
  | ldb_abs
  | ldh_ind
  | ldx_msh
  | jeq
  | jset
  | ret
deriving DecidableEq

/-- One sock_filter entry: operation code, constant k, jump-true and
jump-false displacements. -/
structure BpfInsn where
  op : BpfOp
  k : Nat
  jt : Nat
  jf : Nat
deriving DecidableEq

/-- 16-bit big-endian load from the packet (BPF_LD+BPF_H). -/
def loadH (p : List Nat) (i : Nat) : Nat :=
  p.getD i 0 * 256 + p.getD (i + 1) 0

/-- Classic BPF execution.  Classic BPF jumps are forward only, so the
machine is interpreted on the remaining instruction list: a jump with
displacement d skips d further instructions.  Falling off the end of the
program, which cannot happen for the two programs below, yields 0. -/
def bpf_step (p : List Nat) : List BpfInsn → Nat → Nat → Nat
  | [], _, _ => 0
  | insn :: rest, a, x =>
    match insn.op with
    | .ldh_abs => bpf_step p rest (loadH p insn.k) x
    | .ldb_abs => bpf_step p rest (p.getD insn.k 0) x
    | .ldh_ind => bpf_step p rest (loadH p (x + insn.k)) x
    | .ldx_msh => bpf_step p rest a (4 * (p.getD insn.k 0 % 16))
    | .jeq => bpf_step p (rest.drop (if a = insn.k then insn.jt else insn.jf)) a x
    | .jset => bpf_step p (rest.drop (if a &&& insn.k ≠ 0 then insn.jt else insn.jf)) a x
    | .ret => insn.k
termination_by l _ _ => l.length
decreasing_by
  all_goals simp [List.length_drop]
  all_goals omega

def bpf_run (prog : List BpfInsn) (p : List Nat) : Nat :=
  bpf_step p prog 0 0

/-- The DHCP classifier, link-layer view (before cooked patching):
EtherType IP, protocol UDP, no fragment-offset bits, UDP destination
port 68. -/
def dhcp_bpf_filter : List BpfInsn :=
  [⟨.ldh_abs, 12, 0, 0⟩,
   ⟨.jeq, ETHERTYPE_IP, 0, 8⟩,
   ⟨.ldb_abs, 23, 0, 0⟩,
   ⟨.jeq, IPPROTO_UDP, 0, 6⟩,
   ⟨.ldh_abs, 20, 0, 0⟩,
   ⟨.jset, 0x1fff, 4, 0⟩,
   ⟨.ldx_msh, 14, 0, 0⟩,
   ⟨.ldh_ind, 16, 0, 0⟩,
   ⟨.jeq, DHCP_CLIENT_PORT, 0, 1⟩,
   ⟨.ret, 4294967295, 0, 0⟩,
   ⟨.ret, 0, 0, 0⟩]

/-- The ARP classifier, link-layer view: EtherType ARP, operation REPLY. -/
def arp_bpf_filter : List BpfInsn :=
  [⟨.ldh_abs, 12, 0, 0⟩,
   ⟨.jeq, ETHERTYPE_ARP, 0, 3⟩,
   ⟨.ldh_abs, 20, 0, 0⟩,
   ⟨.jeq, ARPOP_REPLY, 0, 1⟩,
   ⟨.ret, 4294967295, 0, 0⟩,
   ⟨.ret, 0, 0, 0⟩]

/-- A 38-byte Ethernet frame: IPv4, UDP, MF flag set with zero fragment
offset (a first fragment), UDP destination port 68. -/
def frame_mf : List Nat :=
  [0, 0, 0, 0, 0, 0, 0, 0, 0, 0, 0, 0, 8, 0,
   0x45, 0, 0, 0, 0, 0, 0x20, 0, 0, 17,
   0, 0, 0, 0, 0, 0, 0, 0, 0, 0, 0, 0, 0, 68]

/-! ## ni_capture_set_filter state: one-time cooked-mode patching of the
two static programs, guarded by a process-wide flag. -/

/-- Clear the jf field of the instruction at index i. -/
def set_jf (l : List BpfInsn) (i v : Nat) : List BpfInsn :=
  match l.get? i with
  | some insn => l.set i ⟨insn.op, insn.k, insn.jt, v⟩
  | none => l

/-- Subtract n from the k field of the instruction at index i. -/
def sub_k (l : List BpfInsn) (i n : Nat) : List BpfInsn :=
  match l.get? i with
  | some insn => l.set i ⟨insn.op, insn.k - n, insn.jt, insn.jf⟩
  | none => l

structure FilterState where
  dhcp : List BpfInsn
  arp : List BpfInsn
  done : Bool
deriving DecidableEq

def initial_filters : FilterState :=
  ⟨dhcp_bpf_filter, arp_bpf_filter, false⟩

/-- The massaging for Linux cooked packets performed under the static
done flag: skip the EtherType compare and shift the load offsets back by
the Ethernet header length. -/
def patch_filters (st : FilterState) : FilterState :=
  if st.done then st
  else
    ⟨sub_k (sub_k (sub_k (sub_k (set_jf st.dhcp 1 0) 2 ETH_HLEN) 4 ETH_HLEN)
        6 ETH_HLEN) 7 ETH_HLEN,
     sub_k (set_jf st.arp 1 0) 2 ETH_HLEN,
     true⟩

/-- ni_capture_set_filter: patch once per process, then select the
program to attach for the requested protocol.  Returns the new process
state and the attached program. -/
def ni_capture_set_filter (st : FilterState) (protocol : Nat) :
    FilterState × List BpfInsn :=
  let st2 := patch_filters st
  (st2, if protocol = ETHERTYPE_ARP then st2.arp else st2.dhcp)

/-- The DHCP program as it stands after the one-time patching. -/
def dhcp_bpf_filter_cooked : List BpfInsn :=
  [⟨.ldh_abs, 12, 0, 0⟩,
   ⟨.jeq, ETHERTYPE_IP, 0, 0⟩,
   ⟨.ldb_abs, 9, 0, 0⟩,
   ⟨.jeq, IPPROTO_UDP, 0, 6⟩,
   ⟨.ldh_abs, 6, 0, 0⟩,
   ⟨.jset, 0x1fff, 4, 0⟩,
   ⟨.ldx_msh, 0, 0, 0⟩,
   ⟨.ldh_ind, 2, 0, 0⟩,
   ⟨.jeq, DHCP_CLIENT_PORT, 0, 1⟩,
   ⟨.ret, 4294967295, 0, 0⟩,
   ⟨.ret, 0, 0, 0⟩]

/-- The ARP program as it stands after the one-time patching. -/
def arp_bpf_filter_cooked : List BpfInsn :=
  [⟨.ldh_abs, 12, 0, 0⟩,
   ⟨.jeq, ETHERTYPE_ARP, 0, 0⟩,
   ⟨.ldh_abs, 6, 0, 0⟩,
   ⟨.jeq, ARPOP_REPLY, 0, 1⟩,
   ⟨.ret, 4294967295, 0, 0⟩,
   ⟨.ret, 0, 0, 0⟩]

/-! ## Device, socket and adapter state models -/

/-- A wall-clock instant with microsecond precision (struct timeval). -/
structure Timeval where
  sec : Nat
  usec : Nat
deriving DecidableEq

def timerclear : Timeval := ⟨0, 0⟩

/-- The timerisset macro: a timeval is set when either field is nonzero. -/
def timerisset (tv : Timeval) : Bool :=
  decide (tv.sec ≠ 0 ∨ tv.usec ≠ 0)

/-- The timercmp(a, b, <) macro. -/
def timercmp_lt (a b : Timeval) : Bool :=
  if a.sec = b.sec then decide (a.usec < b.usec) else decide (a.sec < b.sec)

/-- The fields of a ni_capture the adapters consult on reopen. -/
structure NiCapture where
  sockPresent : Bool
  sockError : Bool
  protocol : Nat
deriving DecidableEq

/-- The fields of the owning ni_dhcp_device the transport reads and
writes. -/
structure NiDhcpDevice where
  listen_fd : Int
  capture : Option NiCapture
  retrans_deadline : Timeval
deriving DecidableEq

/-- A capture as reachable from a socket user_data pointer: its
back-reference to the owning device. -/
structure CaptureBackref where
  dev : Option NiDhcpDevice

/-- The socket wrapper fields read by the timeout hooks. -/
structure NiSocket where
  user_data : Option CaptureBackref

/-- The get_timeout hook: follow user_data to the capture and then to the
device; report the retransmission deadline when one is set.  The paired
Int is the C return value; on the error paths the out-parameter is left
untouched. -/
def ni_dhcp_socket_get_timeout (sock : NiSocket) (tv_in : Timeval) :
    Int × Timeval :=
  match sock.user_data with
  | none => (-1, tv_in)
  | some capture =>
    match capture.dev with
    | none => (-1, tv_in)
    | some dev =>
      let tv := if timerisset dev.retrans_deadline then dev.retrans_deadline
        else timerclear
      (if timerisset tv then 0 else -1, tv)

/-- The check_timeout hook: returns how many times
ni_dhcp_device_retransmit is invoked for this call. -/
def ni_dhcp_socket_check_timeout (sock : NiSocket) (now : Timeval) : Nat :=
  match sock.user_data with
  | none => 0
  | some capture =>
    match capture.dev with
    | none => 0
    | some dev =>
      if timerisset dev.retrans_deadline &&
          timercmp_lt dev.retrans_deadline now then 1 else 0

/-- Externally visible side effects of the open paths. -/
inductive OpenEffect where
  | createUdpSocket
  | closeFd (fd : Int)
  | freeCapture
  | captureOpen
  | installFilter
deriving DecidableEq

/-- Outcomes of the kernel interactions the open paths depend on. -/
structure OpenEnv where
  udp_socket_fd : Option Int
  udp_bind_ok : Bool
  capture_open_ok : Bool

/-- ni_capture_open, abstracted: when the kernel interactions succeed it
yields a fresh error-free capture for the protocol, after installing the
BPF filter; otherwise it yields nothing. -/
def ni_capture_open_model (env : OpenEnv) (protocol : Nat) :
    Option NiCapture × List OpenEffect :=
  if env.capture_open_ok then
    (some ⟨true, false, protocol⟩, [.captureOpen, .installFilter])
  else (none, [.captureOpen])

/-- The shared adapter open routine: an existing capture with a live
error-free socket of the same protocol is kept as is; otherwise the old
capture is freed and a new one is opened. -/
def ni_dhcp_common_open (dev : NiDhcpDevice) (protocol : Nat)
    (env : OpenEnv) : Int × NiDhcpDevice × List OpenEffect :=
  match dev.capture with
  | some cap =>
    if cap.sockPresent = true ∧ cap.sockError = false ∧
        cap.protocol = protocol then
      (0, dev, [])
    else
      match ni_capture_open_model env protocol with
      | (some cap2, effs) =>
        (0, { dev with capture := some cap2 }, .freeCapture :: effs)
      | (none, effs) =>
        (-1, { dev with capture := none }, .freeCapture :: effs)
  | none =>
    match ni_capture_open_model env protocol with
    | (some cap2, effs) => (0, { dev with capture := some cap2 }, effs)
    | (none, effs) => (-1, { dev with capture := none }, effs)

/-- ni_dhcp_socket_open: when no dummy UDP listening socket exists yet,
create and bind one; a socket() failure returns -1 at once, a bind()
failure closes the fd and leaves listen_fd at -1; then open the DHCP
capture through the common routine. -/
def ni_dhcp_socket_open (dev : NiDhcpDevice) (env : OpenEnv) :
    Int × NiDhcpDevice × List OpenEffect :=
  if dev.listen_fd = -1 then
    match env.udp_socket_fd with
    | none => (-1, dev, [])
    | some fd =>
      if env.udp_bind_ok then
        let r := ni_dhcp_common_open { dev with listen_fd := fd }
          ETHERTYPE_IP env
        (r.1, r.2.1, .createUdpSocket :: r.2.2)
      else
        let r := ni_dhcp_common_open dev ETHERTYPE_IP env
        (r.1, r.2.1, .createUdpSocket :: .closeFd fd :: r.2.2)
  else ni_dhcp_common_open dev ETHERTYPE_IP env

/-! ## ARP receive path -/

/-- The capture fields the ARP receive handler uses. -/
structure ArpCapture where
  buffer : List Nat
  mtu : Nat
deriving DecidableEq

/-- A read of up to mtu bytes into the capture buffer: the delivered
frame overwrites a prefix, the rest of the buffer keeps its old
contents.  Returns the new buffer and the byte count the read returned. -/
def arp_read (cap : ArpCapture) (incoming : List Nat) : List Nat × Nat :=
  let n := min incoming.length cap.mtu
  (incoming.take n ++ cap.buffer.drop n, n)

/-- ni_arp_socket_recv: on a successful read, hand the FSM ARP processor
the capture buffer paired with the length used to initialize the reader,
which the C takes from capture->mtu. -/
def ni_arp_socket_recv (cap : ArpCapture) (incoming : List Nat)
    (read_fails : Bool) : Option (List Nat × Nat) :=
  if read_fails then none
  else some ((arp_read cap incoming).1, cap.mtu)

/-! ## Checksum algebra -/

/-- Induction on byte lists two elements at a time, matching the word
recursion of the checksum. -/
theorem list2_induction {P : List Nat → Prop} (h0 : P []) (h1 : ∀ b, P [b])
    (h2 : ∀ a b l, P l → P (a :: b :: l)) : ∀ l, P l
  | [] => h0
  | [b] => h1 b
  | a :: b :: l => h2 a b l (list2_induction h0 h1 h2 l)

/-- The accumulator seeds the word sum additively. -/
theorem checksum_partial_sum_eq :
    ∀ l : List Nat, ∀ s, checksum_partial_sum s l =
      s + checksum_partial_sum 0 l := by
  refine list2_induction ?_ ?_ ?_
  · intro s; simp [checksum_partial_sum]
  · intro b s; simp [checksum_partial_sum]
  · intro a b l ih s
    simp only [checksum_partial_sum]
    rw [ih (s + (a * 256 + b)), ih (0 + (a * 256 + b))]
    omega

/-- The word sum splits over an append at an even byte boundary. -/
theorem sum16_append_even :
    ∀ l : List Nat, l.length % 2 = 0 → ∀ m,
      checksum_partial_sum 0 (l ++ m) =
        checksum_partial_sum 0 l + checksum_partial_sum 0 m := by
  refine list2_induction ?_ ?_ ?_
  · intro _ m; simp [checksum_partial_sum]
  · intro b h; simp at h
  · intro a b l ih h m
    simp only [List.cons_append, checksum_partial_sum, List.append_eq]
    rw [checksum_partial_sum_eq (l ++ m) (0 + (a * 256 + b)),
      checksum_partial_sum_eq l (0 + (a * 256 + b)),
      ih (by simp only [List.length_cons] at h; omega) m]
    omega

/-- Size bound on the word sum of a well-formed byte list. -/
theorem sum16_le :
    ∀ l : List Nat, bytesWF l →
      checksum_partial_sum 0 l ≤ 65535 * ((l.length + 1) / 2) := by
  refine list2_induction ?_ ?_ ?_
  · intro _; simp [checksum_partial_sum]
  · intro b h
    have hb : b < 256 := h b (by simp)
    simp only [checksum_partial_sum, List.length_singleton]
    omega
  · intro a b l ih h
    have ha : a < 256 := h a (by simp)
    have hb : b < 256 := h b (by simp)
    have hl : bytesWF l := fun x hx => h x (by simp [hx])
    have := ih hl
    simp only [checksum_partial_sum, List.length_cons]
    rw [checksum_partial_sum_eq]
    have h2 : (l.length + 1 + 1 + 1) / 2 = (l.length + 1) / 2 + 1 := by omega
    rw [h2]
    omega

/-- The folded checksum is a 16-bit value. -/
theorem checksum_fold_le (s : Nat) : checksum_fold s ≤ 65535 := by
  simp only [checksum_fold]
  omega

/-- Fold characterization: for an accumulator below 2^32, the folded
checksum is zero exactly when the accumulator is a positive multiple of
65535 (one's-complement zero). -/
theorem checksum_fold_eq_zero_iff (s : Nat) (h : s < 4294967296) :
    checksum_fold s = 0 ↔ s % 65535 = 0 ∧ s ≠ 0 := by
  have hs : s % 4294967296 = s := Nat.mod_eq_of_lt h
  simp only [checksum_fold, hs]
  by_cases hc : s / 65536 + s % 65536 < 65536
  · have h1 : (s / 65536 + s % 65536) / 65536 = 0 := Nat.div_eq_of_lt hc
    rw [h1]
    have h2 : (s / 65536 + s % 65536 + 0) % 65536 = s / 65536 + s % 65536 := by
      omega
    rw [h2]
    omega
  · have h1 : (s / 65536 + s % 65536) / 65536 = 1 := by omega
    rw [h1]
    have h2 : (s / 65536 + s % 65536 + 1) % 65536 =
        s / 65536 + s % 65536 + 1 - 65536 := by omega
    rw [h2]
    omega

/-- Storing the folded complement makes the total sum a multiple of
65535. -/
theorem checksum_store (s : Nat) (h : s < 4294967296) :
    (s + checksum_fold s) % 65535 = 0 := by
  have hs : s % 4294967296 = s := Nat.mod_eq_of_lt h
  simp only [checksum_fold, hs]
  by_cases hc : s / 65536 + s % 65536 < 65536
  · have h1 : (s / 65536 + s % 65536) / 65536 = 0 := Nat.div_eq_of_lt hc
    rw [h1]
    have h2 : (s / 65536 + s % 65536 + 0) % 65536 = s / 65536 + s % 65536 := by
      omega
    rw [h2]
    omega
  · have h1 : (s / 65536 + s % 65536) / 65536 = 1 := by omega
    rw [h1]
    have h2 : (s / 65536 + s % 65536 + 1) % 65536 =
        s / 65536 + s % 65536 + 1 - 65536 := by omega
    rw [h2]
    omega

/-- The total sum with a stored checksum is never zero. -/
theorem checksum_store_ne (s : Nat) (h : s < 4294967296) :
    s + checksum_fold s ≠ 0 := by
  have hs : s % 4294967296 = s := Nat.mod_eq_of_lt h
  simp only [checksum_fold, hs]
  by_cases hc : s / 65536 + s % 65536 < 65536
  · have h1 : (s / 65536 + s % 65536) / 65536 = 0 := Nat.div_eq_of_lt hc
    rw [h1]
    omega
  · have h1 : (s / 65536 + s % 65536) / 65536 = 1 := by omega
    rw [h1]
    omega

/-- Changing one byte changes the word sum by the byte difference at
that position weight. -/
theorem sum16_set :
    ∀ l : List Nat, ∀ i b2, i < l.length →
      checksum_partial_sum 0 (l.set i b2) + l.getD i 0 * weight i =
        checksum_partial_sum 0 l + b2 * weight i := by
  refine list2_induction ?_ ?_ ?_
  · intro i b2 h; simp at h
  · intro b i b2 h
    have : i = 0 := by simpa using Nat.lt_one_iff.mp (by simpa using h)
    subst this
    simp [checksum_partial_sum, weight]
    omega
  · intro a b l ih i b2 h
    match i with
    | 0 =>
      have hw : weight 0 = 256 := rfl
      simp only [List.set_cons_zero, List.getD_cons_zero, hw,
        checksum_partial_sum]
      rw [checksum_partial_sum_eq l (0 + (b2 * 256 + b)),
        checksum_partial_sum_eq l (0 + (a * 256 + b))]
      omega
    | 1 =>
      have hw : weight 1 = 1 := rfl
      simp only [List.set_cons_succ, List.set_cons_zero, List.getD_cons_succ,
        List.getD_cons_zero, hw, checksum_partial_sum]
      rw [checksum_partial_sum_eq l (0 + (a * 256 + b2)),
        checksum_partial_sum_eq l (0 + (a * 256 + b))]
      omega
    | (j + 2) =>
      have hj : j < l.length := by simpa using h
      have hw : weight (j + 2) = weight j := by
        simp [weight, Nat.add_mod_right]
      simp only [List.set_cons_succ, checksum_partial_sum,
        List.getD_cons_succ, hw]
      rw [checksum_partial_sum_eq (l.set j b2) (0 + (a * 256 + b)),
        checksum_partial_sum_eq l (0 + (a * 256 + b))]
      have := ih j b2 hj
      omega

/-- Filling the UDP checksum field with the folded complement of the
pseudo-header, header and payload sums makes the full UDP checksum fold
to zero. -/
theorem udp_store_general (fh uh6 pay : List Nat) (h6 : uh6.length = 6)
    (hb : checksum_partial_sum 0 fh + checksum_partial_sum 0 uh6 +
      checksum_partial_sum 0 pay ≤ 4294901760) :
    checksum_fold (checksum_partial_sum (checksum_partial_sum
      (checksum_partial_sum 0 fh)
      (uh6 ++ [checksum_fold (checksum_partial_sum (checksum_partial_sum
         (checksum_partial_sum 0 fh) (uh6 ++ [0, 0])) pay) % 65536 / 256,
       checksum_fold (checksum_partial_sum (checksum_partial_sum
         (checksum_partial_sum 0 fh) (uh6 ++ [0, 0])) pay) % 256])) pay) = 0 := by
  have heven : uh6.length % 2 = 0 := by rw [h6]
  have e00 : checksum_partial_sum 0 (uh6 ++ [0, 0]) =
      checksum_partial_sum 0 uh6 := by
    rw [sum16_append_even uh6 heven [0, 0]]
    simp [checksum_partial_sum]
  set c := checksum_fold (checksum_partial_sum (checksum_partial_sum
    (checksum_partial_sum 0 fh) (uh6 ++ [0, 0])) pay) with hc
  have hc255 : c ≤ 65535 := checksum_fold_le _
  have exy : checksum_partial_sum 0 (uh6 ++ [c % 65536 / 256, c % 256]) =
      checksum_partial_sum 0 uh6 + c := by
    rw [sum16_append_even uh6 heven [c % 65536 / 256, c % 256]]
    simp only [checksum_partial_sum]
    omega
  rw [checksum_partial_sum_eq (uh6 ++ [c % 65536 / 256, c % 256])
      (checksum_partial_sum 0 fh), exy]
  rw [checksum_partial_sum_eq pay
      (checksum_partial_sum 0 fh + (checksum_partial_sum 0 uh6 + c))]
  have hcS : c = checksum_fold (checksum_partial_sum 0 fh +
      checksum_partial_sum 0 uh6 + checksum_partial_sum 0 pay) := by
    rw [hc, checksum_partial_sum_eq (uh6 ++ [0, 0])
        (checksum_partial_sum 0 fh), e00,
      checksum_partial_sum_eq pay
        (checksum_partial_sum 0 fh + checksum_partial_sum 0 uh6)]
  set S := checksum_partial_sum 0 fh + checksum_partial_sum 0 uh6 +
    checksum_partial_sum 0 pay with hS
  have hS32 : S < 4294967296 := by omega
  have goal_eq : checksum_partial_sum 0 fh +
      (checksum_partial_sum 0 uh6 + c) + checksum_partial_sum 0 pay =
      S + c := by rw [hS]; ring
  rw [goal_eq, hcS]
  have h1 := checksum_store S hS32
  have h2 := checksum_store_ne S hS32
  have h3 : S + checksum_fold S < 4294967296 := by
    have := checksum_fold_le S
    omega
  exact (checksum_fold_eq_zero_iff _ h3).mpr ⟨h1, h2⟩

/-! ## Ingress validation: inversion of acceptance -/

/-- Inversion: an accepted frame satisfies every test of the validation
pipeline, and the returned pair is the post-header span with the IP
total length. -/
theorem check_some_inv (data : List Nat) (pl : List Nat × Nat)
    (h : check_packet_header data = some pl) :
    data.getD 0 0 / 16 = 4 ∧
    20 ≤ data.getD 0 0 % 16 * 4 ∧
    data.getD 0 0 % 16 * 4 ≤ data.length ∧
    checksum (data.take (data.getD 0 0 % 16 * 4)) = 0 ∧
    data.getD 2 0 * 256 + data.getD 3 0 ≤ data.length ∧
    data.getD 9 0 = IPPROTO_UDP ∧
    data.getD 0 0 % 16 * 4 + 8 ≤ data.length ∧
    ipudp_checksum (data.take (data.getD 0 0 % 16 * 4))
      ((data.drop (data.getD 0 0 % 16 * 4)).take 8)
      (data.drop (data.getD 0 0 % 16 * 4 + 8)) = 0 ∧
    pl = (data.drop (data.getD 0 0 % 16 * 4 + 8),
      data.getD 2 0 * 256 + data.getD 3 0) := by
  unfold check_packet_header at h
  split_ifs at h with h1 h2 h3 h4 h5 h6 h7 <;> try simp at h
  push_neg at h1
  refine ⟨h1.1, by omega, by omega, by omega, by omega, by omega, by omega,
    by omega, ?_⟩
  simpa using h.symm

/-- Forward direction: the validation tests imply acceptance. -/
theorem check_some_of_conditions (data : List Nat)
    (h1 : data.getD 0 0 / 16 = 4)
    (h2 : 20 ≤ data.getD 0 0 % 16 * 4)
    (h3 : data.getD 0 0 % 16 * 4 ≤ data.length)
    (h4 : checksum (data.take (data.getD 0 0 % 16 * 4)) = 0)
    (h5 : data.getD 2 0 * 256 + data.getD 3 0 ≤ data.length)
    (h6 : data.getD 9 0 = IPPROTO_UDP)
    (h7 : data.getD 0 0 % 16 * 4 + 8 ≤ data.length)
    (h8 : ipudp_checksum (data.take (data.getD 0 0 % 16 * 4))
      ((data.drop (data.getD 0 0 % 16 * 4)).take 8)
      (data.drop (data.getD 0 0 % 16 * 4 + 8)) = 0) :
    check_packet_header data = some (data.drop (data.getD 0 0 % 16 * 4 + 8),
      data.getD 2 0 * 256 + data.getD 3 0) := by
  unfold check_packet_header
  rw [if_neg (by omega), if_neg (by omega), if_neg (by simpa using h4),
    if_neg (by omega), if_neg (by simpa using h6), if_neg (by omega),
    if_neg (by simpa using h8)]

/-! ## Claim C1 -/

/-- Claim C1 (code bug witness): building the outbound headers over the
one-byte payload [99] and validating the resulting 29-byte frame
succeeds and returns the original payload bytes, but pairs them with the
full IP total length 20 + 8 + 1 = 29 taken from the IP header, not with
the original payload length 1. -/
theorem c1_check_returns_total_length_not_payload_length :
    check_packet_header
      (ni_dhcp_build_send_header [99] [0, 0, 0, 0] [10, 0, 0, 1]) =
      some ([99], 20 + 8 + 1) := by
  decide

/-! ## Claim C2 -/

/-- Claim C2: check_packet_header yields a payload only if the IP
version is 4, the IHL is at least 5 (at least 20 bytes), the received
byte count covers the declared IP total length, the IP header checksum
verifies to zero, the protocol is UDP, and the UDP pseudo-header plus
header plus payload checksum verifies to zero. -/
theorem c2_acceptance_conditions (data : List Nat) (pl : List Nat × Nat)
    (h : check_packet_header data = some pl) :
    data.getD 0 0 / 16 = 4 ∧
    20 ≤ data.getD 0 0 % 16 * 4 ∧
    data.getD 2 0 * 256 + data.getD 3 0 ≤ data.length ∧
    checksum (data.take (data.getD 0 0 % 16 * 4)) = 0 ∧
    data.getD 9 0 = IPPROTO_UDP ∧
    ipudp_checksum (data.take (data.getD 0 0 % 16 * 4))
      ((data.drop (data.getD 0 0 % 16 * 4)).take 8)
      (data.drop (data.getD 0 0 % 16 * 4 + 8)) = 0 := by
  obtain ⟨a1, a2, _, a4, a5, a6, _, a8, _⟩ := check_some_inv data pl h
  exact ⟨a1, a2, a5, a4, a6, a8⟩

/-- Witness for C2 at the concrete accepted frame frame44. -/
theorem c2_acceptance_conditions_witness :
    frame44.getD 0 0 / 16 = 4 ∧
    20 ≤ frame44.getD 0 0 % 16 * 4 ∧
    frame44.getD 2 0 * 256 + frame44.getD 3 0 ≤ frame44.length ∧
    checksum (frame44.take (frame44.getD 0 0 % 16 * 4)) = 0 ∧
    frame44.getD 9 0 = IPPROTO_UDP ∧
    ipudp_checksum (frame44.take (frame44.getD 0 0 % 16 * 4))
      ((frame44.drop (frame44.getD 0 0 % 16 * 4)).take 8)
      (frame44.drop (frame44.getD 0 0 % 16 * 4 + 8)) = 0 :=
  c2_acceptance_conditions frame44 (frame44.drop 28, 44) (by decide)

/-! ## Claim C3 -/

/-- Claim C3 counterexample: frame_mf is an IPv4/UDP/port-68 frame whose
MF flag (bit 0x2000 of the flags and fragment-offset word) is set, so
under the claim it is fragmented and must be rejected; the DHCP
classifier nevertheless accepts it, because the program tests only the
offset bits 0x1fff. -/
theorem c3_counterexample :
    bpf_run dhcp_bpf_filter frame_mf = 4294967295 ∧
    loadH frame_mf 20 &&& 0x2000 ≠ 0 := by
  constructor
  · simp +decide [bpf_run, bpf_step, dhcp_bpf_filter, frame_mf, loadH,
      ETHERTYPE_IP, IPPROTO_UDP, DHCP_CLIENT_PORT]
  · decide

/-- Claim C3 amended: the link-view DHCP classifier accepts exactly the
frames with EtherType IPv4, IP protocol UDP, all fragment-offset bits
(mask 0x1fff) clear, and UDP destination port 68 read at the
IHL-indexed offset; the MF flag is not examined, every IPv6, TCP,
offset-fragmented or wrong-port frame is rejected. -/
theorem c3_dhcp_filter_characterization (p : List Nat) :
    bpf_run dhcp_bpf_filter p ≠ 0 ↔
      loadH p 12 = ETHERTYPE_IP ∧ p.getD 23 0 = IPPROTO_UDP ∧
      loadH p 20 &&& 0x1fff = 0 ∧
      loadH p (4 * (p.getD 14 0 % 16) + 16) = DHCP_CLIENT_PORT := by
  by_cases h1 : loadH p 12 = ETHERTYPE_IP
  · by_cases h2 : p.getD 23 0 = IPPROTO_UDP
    · by_cases h3 : loadH p 20 &&& 0x1fff = 0
      · by_cases h4 : loadH p (4 * (p.getD 14 0 % 16) + 16) = DHCP_CLIENT_PORT
        · simp [bpf_run, bpf_step, dhcp_bpf_filter, h1, h2, h3, h4,
            -List.getD_eq_getElem?_getD]
        · simp [bpf_run, bpf_step, dhcp_bpf_filter, h1, h2, h3, h4,
            -List.getD_eq_getElem?_getD]
      · simp [bpf_run, bpf_step, dhcp_bpf_filter, h1, h2, h3,
          -List.getD_eq_getElem?_getD]
    · simp [bpf_run, bpf_step, dhcp_bpf_filter, h1, h2,
        -List.getD_eq_getElem?_getD]
  · simp [bpf_run, bpf_step, dhcp_bpf_filter, h1,
      -List.getD_eq_getElem?_getD]

/-! ## Claim C4 -/

/-- Claim C4: for every 300-byte payload with source and destination
0.0.0.0, the built frame is 328 bytes long; its first 10 bytes carry
version 4 with IHL 5 (0x45), TOS low-delay, total length 328 (bytes
[1, 72]), ID 0, DF set with zero fragment offset (bytes [0x40, 0]), the
default TTL and protocol UDP; the destination field is coerced to
255.255.255.255; the IP header checksum verifies to zero; the UDP
header carries source port 68, destination port 67 and length 308
(bytes [1, 52]); and the UDP checksum over pseudo header, UDP header
and payload verifies to zero. -/
theorem c4_discover_egress (payload : List Nat) (hlen : payload.length = 300)
    (hwf : bytesWF payload) :
    (ni_dhcp_build_send_header payload [0, 0, 0, 0] [0, 0, 0, 0]).length =
      328 ∧
    (ni_dhcp_build_send_header payload [0, 0, 0, 0] [0, 0, 0, 0]).take 10 =
      [0x45, IPTOS_LOWDELAY, 1, 72, 0, 0, 0x40, 0, IPDEFTTL, IPPROTO_UDP] ∧
    ((ni_dhcp_build_send_header payload [0, 0, 0, 0] [0, 0, 0, 0]).drop
      16).take 4 = [255, 255, 255, 255] ∧
    checksum ((ni_dhcp_build_send_header payload [0, 0, 0, 0]
      [0, 0, 0, 0]).take 20) = 0 ∧
    ((ni_dhcp_build_send_header payload [0, 0, 0, 0] [0, 0, 0, 0]).drop
      20).take 6 = [0, DHCP_CLIENT_PORT, 0, DHCP_SERVER_PORT, 1, 52] ∧
    ipudp_checksum
      ((ni_dhcp_build_send_header payload [0, 0, 0, 0] [0, 0, 0, 0]).take 20)
      (((ni_dhcp_build_send_header payload [0, 0, 0, 0] [0, 0, 0, 0]).drop
        20).take 8)
      ((ni_dhcp_build_send_header payload [0, 0, 0, 0] [0, 0, 0, 0]).drop
        28) = 0 := by
  refine ⟨?_, ?_, ?_, ?_, ?_, ?_⟩
  · simp [ni_dhcp_build_send_header, encode16, hlen]
  · simp [ni_dhcp_build_send_header, encode16, hlen, IPTOS_LOWDELAY,
      IPDEFTTL, IPPROTO_UDP]
  · simp [ni_dhcp_build_send_header, encode16, hlen]
  · simp [ni_dhcp_build_send_header, encode16, hlen]
    decide
  · simp [ni_dhcp_build_send_header, encode16, hlen, DHCP_CLIENT_PORT,
      DHCP_SERVER_PORT]
  · simp [ni_dhcp_build_send_header, encode16, hlen, ipudp_checksum,
      fake_header]
    rw [List.take_of_length_le (by omega)]
    have hP : checksum_partial_sum 0 payload ≤
        65535 * ((payload.length + 1) / 2) := sum16_le payload hwf
    rw [hlen] at hP
    exact udp_store_general
      [0, 0, 0, 0, 255, 255, 255, 255, 0, IPPROTO_UDP, 1, 52]
      [DHCP_CLIENT_PORT % 65536 / 256, DHCP_CLIENT_PORT % 256,
       DHCP_SERVER_PORT % 65536 / 256, DHCP_SERVER_PORT % 256, 1, 52]
      payload (by simp)
      (by
        have h1 : checksum_partial_sum 0
            [0, 0, 0, 0, 255, 255, 255, 255, 0, IPPROTO_UDP, 1, 52] =
            131395 := by decide
        have h2 : checksum_partial_sum 0
            [DHCP_CLIENT_PORT % 65536 / 256, DHCP_CLIENT_PORT % 256,
             DHCP_SERVER_PORT % 65536 / 256, DHCP_SERVER_PORT % 256, 1, 52] =
            443 := by decide
        omega)

/-- Witness for C4 at the all-zero 300-byte payload. -/
theorem c4_discover_egress_witness :
    (ni_dhcp_build_send_header (List.replicate 300 0) [0, 0, 0, 0]
      [0, 0, 0, 0]).length = 328 ∧
    (ni_dhcp_build_send_header (List.replicate 300 0) [0, 0, 0, 0]
      [0, 0, 0, 0]).take 10 =
      [0x45, IPTOS_LOWDELAY, 1, 72, 0, 0, 0x40, 0, IPDEFTTL, IPPROTO_UDP] ∧
    ((ni_dhcp_build_send_header (List.replicate 300 0) [0, 0, 0, 0]
      [0, 0, 0, 0]).drop 16).take 4 = [255, 255, 255, 255] ∧
    checksum ((ni_dhcp_build_send_header (List.replicate 300 0) [0, 0, 0, 0]
      [0, 0, 0, 0]).take 20) = 0 ∧
    ((ni_dhcp_build_send_header (List.replicate 300 0) [0, 0, 0, 0]
      [0, 0, 0, 0]).drop 20).take 6 =
      [0, DHCP_CLIENT_PORT, 0, DHCP_SERVER_PORT, 1, 52] ∧
    ipudp_checksum
      ((ni_dhcp_build_send_header (List.replicate 300 0) [0, 0, 0, 0]
        [0, 0, 0, 0]).take 20)
      (((ni_dhcp_build_send_header (List.replicate 300 0) [0, 0, 0, 0]
        [0, 0, 0, 0]).drop 20).take 8)
      ((ni_dhcp_build_send_header (List.replicate 300 0) [0, 0, 0, 0]
        [0, 0, 0, 0]).drop 28) = 0 :=
  c4_discover_egress (List.replicate 300 0) (by simp)
    (fun b hb => by rw [List.eq_of_mem_replicate hb]; omega)

/-! ## Claim C5 -/

/-- Claim C5: a reopen against a device whose capture has a live,
error-free socket of the requested EtherType succeeds and changes
nothing: the common open returns the device unchanged with no effects,
and the DHCP adapter, given that the dummy UDP socket already exists,
likewise neither reinstalls a filter nor creates a socket. -/
theorem c5_idempotent_reopen (dev : NiDhcpDevice) (cap : NiCapture)
    (env : OpenEnv) (h1 : dev.capture = some cap)
    (h2 : cap.sockPresent = true) (h3 : cap.sockError = false)
    (h4 : cap.protocol = ETHERTYPE_IP) (h5 : dev.listen_fd ≠ -1) :
    ni_dhcp_common_open dev ETHERTYPE_IP env = (0, dev, []) ∧
    ni_dhcp_socket_open dev env = (0, dev, []) := by
  have hco : ni_dhcp_common_open dev ETHERTYPE_IP env = (0, dev, []) := by
    simp [ni_dhcp_common_open, h1, h2, h3, h4]
  refine ⟨hco, ?_⟩
  simp only [ni_dhcp_socket_open, if_neg h5]
  exact hco

/-- Witness for C5 at a concrete device with an installed, error-free
IP capture and a bound dummy socket. -/
theorem c5_idempotent_reopen_witness :
    ni_dhcp_common_open ⟨7, some ⟨true, false, ETHERTYPE_IP⟩, ⟨0, 0⟩⟩
      ETHERTYPE_IP ⟨some 9, true, true⟩ =
      (0, ⟨7, some ⟨true, false, ETHERTYPE_IP⟩, ⟨0, 0⟩⟩, []) ∧
    ni_dhcp_socket_open ⟨7, some ⟨true, false, ETHERTYPE_IP⟩, ⟨0, 0⟩⟩
      ⟨some 9, true, true⟩ =
      (0, ⟨7, some ⟨true, false, ETHERTYPE_IP⟩, ⟨0, 0⟩⟩, []) :=
  c5_idempotent_reopen _ ⟨true, false, ETHERTYPE_IP⟩ _ rfl rfl rfl rfl
    (by decide)

/-! ## Claim C6 -/

/-- Claim C6: with a capture installed and wired to its device, the
get_timeout hook reports the retransmission deadline exactly when it is
set, and one check_timeout call invokes the FSM retransmit exactly once
when now is strictly later than the deadline and not at all otherwise. -/
theorem c6_timeout_hooks (sock : NiSocket) (capture : CaptureBackref)
    (dev : NiDhcpDevice) (now tv_in : Timeval)
    (h1 : sock.user_data = some capture) (h2 : capture.dev = some dev) :
    (timerisset dev.retrans_deadline = true →
      ni_dhcp_socket_get_timeout sock tv_in = (0, dev.retrans_deadline)) ∧
    (timerisset dev.retrans_deadline = false →
      ni_dhcp_socket_get_timeout sock tv_in = (-1, timerclear)) ∧
    (timerisset dev.retrans_deadline = true →
      timercmp_lt dev.retrans_deadline now = true →
      ni_dhcp_socket_check_timeout sock now = 1) ∧
    (timercmp_lt dev.retrans_deadline now = false →
      ni_dhcp_socket_check_timeout sock now = 0) ∧
    (timerisset dev.retrans_deadline = false →
      ni_dhcp_socket_check_timeout sock now = 0) := by
  refine ⟨?_, ?_, ?_, ?_, ?_⟩
  · intro hset
    simp [ni_dhcp_socket_get_timeout, h1, h2, hset]
  · intro hset
    have hset2 : dev.retrans_deadline.sec = 0 ∧
        dev.retrans_deadline.usec = 0 := by
      simp [timerisset] at hset
      omega
    simp [ni_dhcp_socket_get_timeout, h1, h2, timerisset, timerclear,
      hset2.1, hset2.2]
  · intro hset hlt
    simp [ni_dhcp_socket_check_timeout, h1, h2, hset, hlt]
  · intro hlt
    simp [ni_dhcp_socket_check_timeout, h1, h2, hlt]
  · intro hset
    simp [ni_dhcp_socket_check_timeout, h1, h2, hset]

/-- Witness for C6 at a deadline of 5 s and a now of 5 s + 1 us. -/
theorem c6_timeout_hooks_witness :
    (timerisset (⟨5, 0⟩ : Timeval) = true →
      ni_dhcp_socket_get_timeout ⟨some ⟨some ⟨0, none, ⟨5, 0⟩⟩⟩⟩ ⟨1, 2⟩ =
        (0, (⟨5, 0⟩ : Timeval))) ∧
    (timerisset (⟨5, 0⟩ : Timeval) = false →
      ni_dhcp_socket_get_timeout ⟨some ⟨some ⟨0, none, ⟨5, 0⟩⟩⟩⟩ ⟨1, 2⟩ =
        (-1, timerclear)) ∧
    (timerisset (⟨5, 0⟩ : Timeval) = true →
      timercmp_lt ⟨5, 0⟩ ⟨5, 1⟩ = true →
      ni_dhcp_socket_check_timeout ⟨some ⟨some ⟨0, none, ⟨5, 0⟩⟩⟩⟩ ⟨5, 1⟩ = 1) ∧
    (timercmp_lt ⟨5, 0⟩ ⟨5, 1⟩ = false →
      ni_dhcp_socket_check_timeout ⟨some ⟨some ⟨0, none, ⟨5, 0⟩⟩⟩⟩ ⟨5, 1⟩ = 0) ∧
    (timerisset (⟨5, 0⟩ : Timeval) = false →
      ni_dhcp_socket_check_timeout ⟨some ⟨some ⟨0, none, ⟨5, 0⟩⟩⟩⟩ ⟨5, 1⟩ = 0) :=
  c6_timeout_hooks ⟨some ⟨some ⟨0, none, ⟨5, 0⟩⟩⟩⟩ ⟨some ⟨0, none, ⟨5, 0⟩⟩⟩
    ⟨0, none, ⟨5, 0⟩⟩ ⟨5, 1⟩ ⟨1, 2⟩ rfl rfl

/-! ## Claim C7 -/

/-- Claim C7 counterexample: with an MTU of 4 and a single delivered
byte, the read returns 1 byte, yet the pair handed to the FSM ARP
processor is the whole 4-byte capture buffer with length 4, not the
1-byte frame with length 1. -/
theorem c7_counterexample :
    ni_arp_socket_recv ⟨[0, 0, 0, 0], 4⟩ [7] false = some ([7, 0, 0, 0], 4) ∧
    (arp_read ⟨[0, 0, 0, 0], 4⟩ [7]).2 = 1 := by
  decide

/-- Claim C7 amended: on every successful ARP receive the FSM ARP
processor is handed the capture buffer, in which the read frame is a
prefix followed by the stale remainder, with length capture mtu rather
than the byte count the read returned. -/
theorem c7_arp_recv_passes_mtu (cap : ArpCapture) (incoming : List Nat)
    (h1 : incoming.length ≤ cap.mtu) :
    ni_arp_socket_recv cap incoming false =
      some (incoming ++ cap.buffer.drop incoming.length, cap.mtu) := by
  simp [ni_arp_socket_recv, arp_read, Nat.min_eq_left h1]

/-- Witness for the amended C7 at a concrete capture. -/
theorem c7_arp_recv_passes_mtu_witness :
    ni_arp_socket_recv ⟨[1, 2, 3, 4], 4⟩ [9, 8] false =
      some ([9, 8] ++ [1, 2, 3, 4].drop 2, 4) :=
  c7_arp_recv_passes_mtu ⟨[1, 2, 3, 4], 4⟩ [9, 8] (by decide)

/-! ## Claim C9 -/

/-- One call from the pristine state produces exactly the cooked
programs: each load offset reduced by the 14-byte Ethernet header length
once and the EtherType compare disabled. -/
theorem set_filter_initial (pr : Nat) :
    (ni_capture_set_filter initial_filters pr).1 =
      ⟨dhcp_bpf_filter_cooked, arp_bpf_filter_cooked, true⟩ := by
  simp only [ni_capture_set_filter]
  decide

/-- Once the done flag is set, further calls leave the state alone. -/
theorem set_filter_done (st : FilterState) (pr : Nat) (h : st.done = true) :
    (ni_capture_set_filter st pr).1 = st := by
  simp [ni_capture_set_filter, patch_filters, h]

/-- Folding calls over a done state is the identity. -/
theorem foldl_set_filter_done (ps : List Nat) (st : FilterState)
    (h : st.done = true) :
    ps.foldl (fun s pr => (ni_capture_set_filter s pr).1) st = st := by
  induction ps with
  | nil => rfl
  | cons p ps ih =>
    simp only [List.foldl_cons, set_filter_done st p h]
    exact ih

/-- Claim C9: after any nonempty sequence of ni_capture_set_filter
calls, for whatever protocols, the process state holds exactly the
once-patched cooked programs: the patching happened once and further
calls are no-ops. -/
theorem c9_patch_once (ps : List Nat) (h : ps ≠ []) :
    ps.foldl (fun s pr => (ni_capture_set_filter s pr).1) initial_filters =
      ⟨dhcp_bpf_filter_cooked, arp_bpf_filter_cooked, true⟩ := by
  match ps with
  | [] => exact absurd rfl h
  | p :: ps =>
    simp only [List.foldl_cons, set_filter_initial p]
    exact foldl_set_filter_done ps _ rfl

/-- Witness for C9 at a concrete call sequence mixing both protocols. -/
theorem c9_patch_once_witness :
    [ETHERTYPE_IP, ETHERTYPE_ARP, ETHERTYPE_IP].foldl
      (fun s pr => (ni_capture_set_filter s pr).1) initial_filters =
      ⟨dhcp_bpf_filter_cooked, arp_bpf_filter_cooked, true⟩ :=
  c9_patch_once [ETHERTYPE_IP, ETHERTYPE_ARP, ETHERTYPE_IP] (by decide)

/-! ## Claim C10 -/

/-- The common open never touches the dummy-socket descriptor. -/
theorem common_open_listen_fd (dev : NiDhcpDevice) (p : Nat)
    (env : OpenEnv) :
    (ni_dhcp_common_open dev p env).2.1.listen_fd = dev.listen_fd := by
  rcases hcap : dev.capture with _ | cap <;>
    simp [ni_dhcp_common_open, ni_capture_open_model, hcap] <;>
    split_ifs <;> simp

/-- Claim C10 counterexample: with no dummy socket bound and socket()
failing, ni_dhcp_socket_open returns -1 immediately and performs no
effect, even though the capture open would have succeeded, so the
return value does not reflect the capture open. -/
theorem c10_counterexample :
    ni_dhcp_socket_open ⟨-1, none, ⟨0, 0⟩⟩ ⟨none, true, true⟩ =
      (-1, ⟨-1, none, ⟨0, 0⟩⟩, []) ∧
    (ni_dhcp_common_open ⟨-1, none, ⟨0, 0⟩⟩ ETHERTYPE_IP
      ⟨none, true, true⟩).1 = 0 := by
  decide

/-- Claim C10 amended: a bind() failure of the dummy socket is
tolerated: the fd is closed, listen_fd stays -1, the DHCP capture open
proceeds and determines the return value; a socket() creation failure,
however, returns -1 without opening the capture. -/
theorem c10_dummy_socket_tolerance (dev : NiDhcpDevice) (env : OpenEnv)
    (fd : Int) (h1 : dev.listen_fd = -1) :
    (env.udp_socket_fd = none → ni_dhcp_socket_open dev env = (-1, dev, [])) ∧
    (env.udp_socket_fd = some fd → env.udp_bind_ok = false →
      ni_dhcp_socket_open dev env =
        ((ni_dhcp_common_open dev ETHERTYPE_IP env).1,
         (ni_dhcp_common_open dev ETHERTYPE_IP env).2.1,
         .createUdpSocket :: .closeFd fd ::
           (ni_dhcp_common_open dev ETHERTYPE_IP env).2.2) ∧
      (ni_dhcp_common_open dev ETHERTYPE_IP env).2.1.listen_fd = -1) := by
  constructor
  · intro hs
    simp [ni_dhcp_socket_open, h1, hs]
  · intro hs hb
    refine ⟨?_, by rw [common_open_listen_fd]; exact h1⟩
    simp [ni_dhcp_socket_open, h1, hs, hb]

/-- Witness for the amended C10 at a concrete device and environment. -/
theorem c10_dummy_socket_tolerance_witness :
    ((⟨some 3, false, true⟩ : OpenEnv).udp_socket_fd = none →
      ni_dhcp_socket_open ⟨-1, none, ⟨0, 0⟩⟩ ⟨some 3, false, true⟩ =
        (-1, ⟨-1, none, ⟨0, 0⟩⟩, [])) ∧
    ((⟨some 3, false, true⟩ : OpenEnv).udp_socket_fd = some 3 →
      (⟨some 3, false, true⟩ : OpenEnv).udp_bind_ok = false →
      ni_dhcp_socket_open ⟨-1, none, ⟨0, 0⟩⟩ ⟨some 3, false, true⟩ =
        ((ni_dhcp_common_open ⟨-1, none, ⟨0, 0⟩⟩ ETHERTYPE_IP
            ⟨some 3, false, true⟩).1,
         (ni_dhcp_common_open ⟨-1, none, ⟨0, 0⟩⟩ ETHERTYPE_IP
            ⟨some 3, false, true⟩).2.1,
         .createUdpSocket :: .closeFd 3 ::
           (ni_dhcp_common_open ⟨-1, none, ⟨0, 0⟩⟩ ETHERTYPE_IP
             ⟨some 3, false, true⟩).2.2) ∧
      (ni_dhcp_common_open ⟨-1, none, ⟨0, 0⟩⟩ ETHERTYPE_IP
        ⟨some 3, false, true⟩).2.1.listen_fd = -1) :=
  c10_dummy_socket_tolerance ⟨-1, none, ⟨0, 0⟩⟩ ⟨some 3, false, true⟩ 3 rfl


/-! ## Claim C8: helper lemmas on byte lists, bounded sums and
one's-complement cancellation -/


theorem getD_set_ne (l : List Nat) (i j a : Nat) (h : i ≠ j) :
    (l.set i a).getD j 0 = l.getD j 0 := by
  simp [List.getElem?_set_ne h]

theorem getD_set_self (l : List Nat) (i a : Nat) (h : i < l.length) :
    (l.set i a).getD i 0 = a := by
  simp [List.getElem?_set_self h]

theorem getD_take (l : List Nat) (n i : Nat) (h : i < n) :
    (l.take n).getD i 0 = l.getD i 0 := by
  simp [List.getElem?_take_of_lt h]

theorem getD_drop (l : List Nat) (n i : Nat) :
    (l.drop n).getD i 0 = l.getD (n + i) 0 := by
  simp

theorem getD_lt_256 (l : List Nat) (h : bytesWF l) (i : Nat) :
    l.getD i 0 < 256 := by
  by_cases hi : i < l.length
  · rw [List.getD_eq_getElem l 0 hi]
    exact h _ (List.getElem_mem hi)
  · rw [List.getD_eq_default l 0 (by omega)]
    omega

theorem bytesWF_take (l : List Nat) (n : Nat) (h : bytesWF l) :
    bytesWF (l.take n) :=
  fun b hb => h b (List.take_subset n l hb)

theorem bytesWF_drop (l : List Nat) (n : Nat) (h : bytesWF l) :
    bytesWF (l.drop n) :=
  fun b hb => h b (List.drop_subset n l hb)

theorem bytesWF_set (l : List Nat) (i a : Nat) (h : bytesWF l)
    (ha : a < 256) : bytesWF (l.set i a) := by
  intro b hb
  rcases List.mem_or_eq_of_mem_set hb with hb2 | rfl
  · exact h b hb2
  · exact ha

theorem xor_bit_facts : ∀ b < 256, ∀ k < 8,
    b ^^^ 2 ^ k < 256 ∧ b ^^^ 2 ^ k ≠ b := by decide

theorem version_flip : ∀ b < 256, ∀ k < 8, 4 ≤ k → b / 16 = 4 →
    (b ^^^ 2 ^ k) / 16 ≠ 4 := by decide

theorem weight_cases (i : Nat) : weight i = 1 ∨ weight i = 256 := by
  rcases Nat.mod_two_eq_zero_or_one i with h | h <;> simp [weight, h]

theorem check_none_of_version (d : List Nat) (h : d.getD 0 0 / 16 ≠ 4) :
    check_packet_header d = none := by
  unfold check_packet_header
  rw [if_pos (Or.inl h)]

theorem check_none_of_ipsum (d : List Nat)
    (h1 : ¬(d.getD 0 0 / 16 ≠ 4 ∨ d.getD 0 0 % 16 * 4 < 20))
    (h2 : ¬(d.length < d.getD 0 0 % 16 * 4))
    (h3 : checksum (d.take (d.getD 0 0 % 16 * 4)) ≠ 0) :
    check_packet_header d = none := by
  unfold check_packet_header
  rw [if_neg h1, if_neg h2, if_pos h3]

theorem check_none_of_udpsum (d : List Nat)
    (h1 : ¬(d.getD 0 0 / 16 ≠ 4 ∨ d.getD 0 0 % 16 * 4 < 20))
    (h2 : ¬(d.length < d.getD 0 0 % 16 * 4))
    (h3 : ¬(checksum (d.take (d.getD 0 0 % 16 * 4)) ≠ 0))
    (h4 : ¬(d.length < d.getD 2 0 * 256 + d.getD 3 0))
    (h5 : ¬(d.getD 9 0 ≠ IPPROTO_UDP))
    (h6 : ¬(d.length - d.getD 0 0 % 16 * 4 < 8))
    (h7 : ipudp_checksum (d.take (d.getD 0 0 % 16 * 4))
      ((d.drop (d.getD 0 0 % 16 * 4)).take 8)
      (d.drop (d.getD 0 0 % 16 * 4 + 8)) ≠ 0) :
    check_packet_header d = none := by
  unfold check_packet_header
  rw [if_neg h1, if_neg h2, if_neg h3, if_neg h4, if_neg h5, if_neg h6,
    if_pos h7]

theorem fake_header_length_le (iph uh : List Nat) :
    (fake_header iph uh).length ≤ 12 := by
  simp [fake_header]
  omega

theorem bytesWF_fake (iph uh : List Nat) (hi : bytesWF iph)
    (hu : bytesWF uh) : bytesWF (fake_header iph uh) := by
  intro b hb
  simp only [fake_header, List.append_assoc, List.mem_append,
    List.mem_cons, List.mem_singleton] at hb
  rcases hb with hb | hb | hb | hb
  · exact hi b (List.take_subset _ _ (by exact hb) |> List.drop_subset _ _)
  · exact hi b (List.take_subset _ _ hb |> List.drop_subset _ _)
  · rcases hb with rfl | hb
    · omega
    · rcases hb with rfl | hb
      · exact getD_lt_256 iph hi 9
      · simp at hb
  · exact hu b (List.take_subset _ _ hb |> List.drop_subset _ _)

theorem ipudp_total (iph uh pay : List Nat) :
    ipudp_checksum iph uh pay = checksum_fold
      (checksum_partial_sum 0 (fake_header iph uh) +
       checksum_partial_sum 0 uh +
       checksum_partial_sum 0 (pay.take (pay.length % 65536))) := by
  unfold ipudp_checksum
  rw [checksum_partial_sum_eq uh (checksum_partial_sum 0 (fake_header iph uh)),
    checksum_partial_sum_eq (pay.take (pay.length % 65536))
      (checksum_partial_sum 0 (fake_header iph uh) +
        checksum_partial_sum 0 uh)]

theorem ipudp_total_bound (iph uh pay : List Nat) (hi : bytesWF iph)
    (hu : bytesWF uh) (hp : bytesWF pay) (hu8 : uh.length = 8) :
    checksum_partial_sum 0 (fake_header iph uh) +
      checksum_partial_sum 0 uh +
      checksum_partial_sum 0 (pay.take (pay.length % 65536)) +
      65535 < 4294967296 := by
  have f1 := sum16_le (fake_header iph uh) (bytesWF_fake iph uh hi hu)
  have f2 := sum16_le uh hu
  have f3 := sum16_le (pay.take (pay.length % 65536))
    (bytesWF_take pay _ hp)
  have l1 := fake_header_length_le iph uh
  have l3 : (pay.take (pay.length % 65536)).length ≤ 65535 := by
    simp [List.length_take]
    omega
  rw [hu8] at f2
  omega

theorem add_mod_left_zero (t x : Nat) (h : t % 65535 = 0) :
    (t + x) % 65535 = x % 65535 := by
  omega

theorem mod_free_eq (x y : Nat) (hx : x < 65535) (hy : y < 65535)
    (hxy : x % 65535 = y % 65535) : x = y := by
  rwa [Nat.mod_eq_of_lt hx, Nat.mod_eq_of_lt hy] at hxy

theorem mod_disj (x y : Nat) (hxy : x % 65535 = y % 65535)
    (hx : x ≤ 130560) (hy : y ≤ 130560) :
    x = y ∨ x = y + 65535 ∨ y = x + 65535 := by
  omega

theorem byte_w_lt (b w : Nat) (hb : b < 256) (hw : w = 1 ∨ w = 256) :
    b * w < 65535 := by
  rcases hw with rfl | rfl <;> omega

theorem byte_one_two_lt (b : Nat) (hb : b < 256) :
    b * 1 + b * 1 < 65535 := by
  omega

theorem byte_256_two_le (b : Nat) (hb : b < 256) :
    b * 256 + b * 256 ≤ 130560 := by
  omega

theorem cancel_w (b b2 w : Nat) (hw : w = 1 ∨ w = 256)
    (h : b * w = b2 * w) : b2 = b := by
  rcases hw with rfl | rfl <;> omega

theorem cancel_two_one (b b2 : Nat) (h : b * 1 + b * 1 = b2 * 1 + b2 * 1) :
    b2 = b := by
  omega

theorem cancel_two_256 (b b2 : Nat)
    (h : b * 256 + b * 256 = b2 * 256 + b2 * 256) : b2 = b := by
  omega

theorem cancel_two_256_off (b b2 : Nat) (hb : b < 256) (hb2 : b2 < 256)
    (h : b * 256 + b * 256 = b2 * 256 + b2 * 256 + 65535) : False := by
  omega

theorem mod_cancel_single (tB tA b b2 w : Nat) (hw : w = 1 ∨ w = 256)
    (hb : b < 256) (hb2 : b2 < 256) (heq : tB + b * w = tA + b2 * w)
    (hA : tA % 65535 = 0) (hB : tB % 65535 = 0) : b2 = b := by
  have hxy : (b * w) % 65535 = (b2 * w) % 65535 := by
    rw [← add_mod_left_zero tB (b * w) hB,
      ← add_mod_left_zero tA (b2 * w) hA, heq]
  exact cancel_w b b2 w hw
    (mod_free_eq _ _ (byte_w_lt b w hb hw) (byte_w_lt b2 w hb2 hw) hxy)

theorem mod_cancel_double (tB tA b b2 w : Nat) (hw : w = 1 ∨ w = 256)
    (hb : b < 256) (hb2 : b2 < 256)
    (heq : tB + b * w + b * w = tA + b2 * w + b2 * w)
    (hA : tA % 65535 = 0) (hB : tB % 65535 = 0) : b2 = b := by
  have hxy : (b * w + b * w) % 65535 = (b2 * w + b2 * w) % 65535 := by
    rw [← add_mod_left_zero tB (b * w + b * w) hB,
      ← add_mod_left_zero tA (b2 * w + b2 * w) hA,
      ← Nat.add_assoc, ← Nat.add_assoc, heq]
  rcases hw with rfl | rfl
  · exact cancel_two_one b b2
      (mod_free_eq _ _ (byte_one_two_lt b hb) (byte_one_two_lt b2 hb2) hxy)
  · rcases mod_disj _ _ hxy (byte_256_two_le b hb) (byte_256_two_le b2 hb2)
      with h | h | h
    · exact cancel_two_256 b b2 h
    · exact (cancel_two_256_off b b2 hb hb2 h).elim
    · exact (cancel_two_256_off b2 b hb2 hb h).elim

theorem fake_header_set_outside (iph uh : List Nat) (h8 : uh.length = 8)
    (j b2 : Nat) (hj : j < 4 ∨ (6 ≤ j ∧ j < 8)) :
    fake_header iph (uh.set j b2) = fake_header iph uh := by
  rcases hj with hj | hj
  · unfold fake_header
    rw [List.drop_set, if_pos hj]
  · unfold fake_header
    rw [List.drop_set, if_neg (by omega), List.set_take,
      List.set_eq_of_length_le
        (by simp [List.length_take, List.length_drop, h8]; omega)]

theorem fake_header_set_ulen (iph uh : List Nat) (h20 : 20 ≤ iph.length)
    (h8 : uh.length = 8) (j b2 : Nat) (hj : j = 4 ∨ j = 5) :
    checksum_partial_sum 0 (fake_header iph (uh.set j b2)) +
      uh.getD j 0 * weight j =
    checksum_partial_sum 0 (fake_header iph uh) + b2 * weight j := by
  have hPlen : ((iph.drop 12).take 4 ++ (iph.drop 16).take 4 ++
      [0, iph.getD 9 0]).length % 2 = 0 := by
    simp [List.length_append, List.length_take, List.length_drop]
    omega
  have hfa : fake_header iph (uh.set j b2) =
      ((iph.drop 12).take 4 ++ (iph.drop 16).take 4 ++ [0, iph.getD 9 0]) ++
        (((uh.set j b2).drop 4).take 2) := rfl
  have hfb : fake_header iph uh =
      ((iph.drop 12).take 4 ++ (iph.drop 16).take 4 ++ [0, iph.getD 9 0]) ++
        ((uh.drop 4).take 2) := rfl
  have hT : ((uh.set j b2).drop 4).take 2 =
      ((uh.drop 4).take 2).set (j - 4) b2 := by
    rw [List.drop_set, if_neg (by omega), List.set_take]
  have hTlen : ((uh.drop 4).take 2).length = 2 := by
    simp [List.length_take, List.length_drop, h8]
  have hTg : ((uh.drop 4).take 2).getD (j - 4) 0 = uh.getD j 0 := by
    rw [getD_take _ 2 _ (by omega), getD_drop]
    congr 1
    omega
  have hw : weight (j - 4) = weight j := by
    rcases hj with rfl | rfl <;> decide
  have hset := sum16_set ((uh.drop 4).take 2) (j - 4) b2 (by rw [hTlen]; omega)
  rw [hTg, hw] at hset
  rw [hfa, hfb, hT, sum16_append_even _ hPlen, sum16_append_even _ hPlen]
  omega

theorem c8_bit_flip_drops (data : List Nat) (pl : List Nat × Nat)
    (hwf : bytesWF data) (hacc : check_packet_header data = some pl)
    (i k : Nat) (hi8 : i < data.getD 0 0 % 16 * 4 + 8) (hk : k < 8)
    (hv : i = 0 → 4 ≤ k) :
    check_packet_header (flip_bit data i k) = none := by
  obtain ⟨a1, a2, a3, a4, a5, a6, a7, a8, -⟩ := check_some_inv data pl hacc
  have hilen : i < data.length := by omega
  have hb : data.getD i 0 < 256 := getD_lt_256 data hwf i
  obtain ⟨hb2lt, hb2ne⟩ := xor_bit_facts (data.getD i 0) hb k hk
  unfold flip_bit
  by_cases hi0 : i = 0
  · subst hi0
    apply check_none_of_version
    rw [getD_set_self data 0 _ (by omega)]
    exact version_flip _ hb k hk (hv rfl) a1
  · generalize hb2g : data.getD i 0 ^^^ 2 ^ k = b2 at hb2lt hb2ne ⊢
    have hB0 : (data.set i b2).getD 0 0 = data.getD 0 0 :=
      getD_set_ne data i 0 b2 hi0
    have hBlen : (data.set i b2).length = data.length := List.length_set data i b2
    by_cases hic : i < data.getD 0 0 % 16 * 4
    · -- a flip inside the IP header: the IP checksum test fails
      apply check_none_of_ipsum
      · rw [hB0]
        omega
      · rw [hB0, hBlen]
        omega
      · rw [hB0, List.set_take]
        intro h0
        have htlen : (data.take (data.getD 0 0 % 16 * 4)).length =
            data.getD 0 0 % 16 * 4 := by
          rw [List.length_take]
          omega
        have hwfA := bytesWF_take data (data.getD 0 0 % 16 * 4) hwf
        have hwfB := bytesWF_set (data.take (data.getD 0 0 % 16 * 4)) i b2
          hwfA hb2lt
        have hbA : checksum_partial_sum 0
            (data.take (data.getD 0 0 % 16 * 4)) < 4294967296 := by
          have hle := sum16_le (data.take (data.getD 0 0 % 16 * 4)) hwfA
          rw [htlen] at hle
          omega
        have hbB : checksum_partial_sum 0
            ((data.take (data.getD 0 0 % 16 * 4)).set i b2) < 4294967296 := by
          have hle := sum16_le ((data.take (data.getD 0 0 % 16 * 4)).set i b2)
            hwfB
          rw [List.length_set, htlen] at hle
          omega
        have hgA : (data.take (data.getD 0 0 % 16 * 4)).getD i 0 =
            data.getD i 0 := getD_take data (data.getD 0 0 % 16 * 4) i hic
        have heq := sum16_set (data.take (data.getD 0 0 % 16 * 4)) i b2
          (by rw [htlen]; omega)
        rw [hgA] at heq
        unfold checksum at a4 h0
        have hA := (checksum_fold_eq_zero_iff _ hbA).mp a4
        have hB := (checksum_fold_eq_zero_iff _ hbB).mp h0
        exact hb2ne (mod_cancel_single _ _ (data.getD i 0) b2 (weight i)
          (weight_cases i) hb hb2lt heq hA.1 hB.1)
    · -- a flip inside the UDP header: the UDP checksum test fails
      have htake : (data.set i b2).take (data.getD 0 0 % 16 * 4) =
          data.take (data.getD 0 0 % 16 * 4) := by
        rw [List.set_take, List.set_eq_of_length_le
          (by rw [List.length_take]; omega)]
      have hg2 : (data.set i b2).getD 2 0 = data.getD 2 0 :=
        getD_set_ne data i 2 b2 (by omega)
      have hg3 : (data.set i b2).getD 3 0 = data.getD 3 0 :=
        getD_set_ne data i 3 b2 (by omega)
      have hg9 : (data.set i b2).getD 9 0 = data.getD 9 0 :=
        getD_set_ne data i 9 b2 (by omega)
      have hdrop28 : (data.set i b2).drop (data.getD 0 0 % 16 * 4 + 8) =
          data.drop (data.getD 0 0 % 16 * 4 + 8) := by
        rw [List.drop_set, if_pos (by omega)]
      have huh : ((data.set i b2).drop (data.getD 0 0 % 16 * 4)).take 8 =
          ((data.drop (data.getD 0 0 % 16 * 4)).take 8).set
            (i - data.getD 0 0 % 16 * 4) b2 := by
        rw [List.drop_set, if_neg (by omega), List.set_take]
      apply check_none_of_udpsum
      · rw [hB0]
        omega
      · rw [hB0, hBlen]
        omega
      · rw [hB0, htake]
        exact fun hh => hh a4
      · rw [hBlen, hg2, hg3]
        omega
      · rw [hg9]
        exact fun hh => hh a6
      · rw [hB0, hBlen]
        omega
      · rw [hB0, htake, huh, hdrop28]
        intro h0
        have hilen2 : (data.take (data.getD 0 0 % 16 * 4)).length =
            data.getD 0 0 % 16 * 4 := by
          rw [List.length_take]
          omega
        have huh8 : ((data.drop (data.getD 0 0 % 16 * 4)).take 8).length = 8 := by
          simp only [List.length_take, List.length_drop]
          omega
        have hwfi := bytesWF_take data (data.getD 0 0 % 16 * 4) hwf
        have hwfu := bytesWF_take (data.drop (data.getD 0 0 % 16 * 4)) 8
          (bytesWF_drop data (data.getD 0 0 % 16 * 4) hwf)
        have hwfu2 := bytesWF_set ((data.drop (data.getD 0 0 % 16 * 4)).take 8)
          (i - data.getD 0 0 % 16 * 4) b2 hwfu hb2lt
        have hwfp := bytesWF_drop data (data.getD 0 0 % 16 * 4 + 8) hwf
        rw [ipudp_total] at a8 h0
        have hbA := ipudp_total_bound (data.take (data.getD 0 0 % 16 * 4))
          ((data.drop (data.getD 0 0 % 16 * 4)).take 8)
          (data.drop (data.getD 0 0 % 16 * 4 + 8)) hwfi hwfu hwfp huh8
        have hbB := ipudp_total_bound (data.take (data.getD 0 0 % 16 * 4))
          (((data.drop (data.getD 0 0 % 16 * 4)).take 8).set
            (i - data.getD 0 0 % 16 * 4) b2)
          (data.drop (data.getD 0 0 % 16 * 4 + 8)) hwfi hwfu2 hwfp
          (by rw [List.length_set]; exact huh8)
        have hSAlt : checksum_partial_sum 0 (fake_header
              (data.take (data.getD 0 0 % 16 * 4))
              ((data.drop (data.getD 0 0 % 16 * 4)).take 8)) +
            checksum_partial_sum 0
              ((data.drop (data.getD 0 0 % 16 * 4)).take 8) +
            checksum_partial_sum 0
              ((data.drop (data.getD 0 0 % 16 * 4 + 8)).take
                ((data.drop (data.getD 0 0 % 16 * 4 + 8)).length % 65536)) <
            4294967296 := by
          omega
        have hSBlt : checksum_partial_sum 0 (fake_header
              (data.take (data.getD 0 0 % 16 * 4))
              (((data.drop (data.getD 0 0 % 16 * 4)).take 8).set
                (i - data.getD 0 0 % 16 * 4) b2)) +
            checksum_partial_sum 0
              (((data.drop (data.getD 0 0 % 16 * 4)).take 8).set
                (i - data.getD 0 0 % 16 * 4) b2) +
            checksum_partial_sum 0
              ((data.drop (data.getD 0 0 % 16 * 4 + 8)).take
                ((data.drop (data.getD 0 0 % 16 * 4 + 8)).length % 65536)) <
            4294967296 := by
          omega
        have hgu : ((data.drop (data.getD 0 0 % 16 * 4)).take 8).getD
            (i - data.getD 0 0 % 16 * 4) 0 = data.getD i 0 := by
          rw [getD_take _ 8 _ (by omega), getD_drop]
          congr 1
          omega
        have hequ := sum16_set ((data.drop (data.getD 0 0 % 16 * 4)).take 8)
          (i - data.getD 0 0 % 16 * 4) b2 (by rw [huh8]; omega)
        rw [hgu] at hequ
        by_cases hulen : i - data.getD 0 0 % 16 * 4 = 4 ∨
            i - data.getD 0 0 % 16 * 4 = 5
        · have heqf := fake_header_set_ulen (data.take (data.getD 0 0 % 16 * 4))
            ((data.drop (data.getD 0 0 % 16 * 4)).take 8)
            (by rw [hilen2]; omega) huh8 (i - data.getD 0 0 % 16 * 4) b2 hulen
          rw [hgu] at heqf
          have hcomb :
              checksum_partial_sum 0 (fake_header
                  (data.take (data.getD 0 0 % 16 * 4))
                  (((data.drop (data.getD 0 0 % 16 * 4)).take 8).set
                    (i - data.getD 0 0 % 16 * 4) b2)) +
                checksum_partial_sum 0
                  (((data.drop (data.getD 0 0 % 16 * 4)).take 8).set
                    (i - data.getD 0 0 % 16 * 4) b2) +
                checksum_partial_sum 0
                  ((data.drop (data.getD 0 0 % 16 * 4 + 8)).take
                    ((data.drop (data.getD 0 0 % 16 * 4 + 8)).length % 65536)) +
                data.getD i 0 * weight (i - data.getD 0 0 % 16 * 4) +
                data.getD i 0 * weight (i - data.getD 0 0 % 16 * 4) =
              checksum_partial_sum 0 (fake_header
                  (data.take (data.getD 0 0 % 16 * 4))
                  ((data.drop (data.getD 0 0 % 16 * 4)).take 8)) +
                checksum_partial_sum 0
                  ((data.drop (data.getD 0 0 % 16 * 4)).take 8) +
                checksum_partial_sum 0
                  ((data.drop (data.getD 0 0 % 16 * 4 + 8)).take
                    ((data.drop (data.getD 0 0 % 16 * 4 + 8)).length % 65536)) +
                b2 * weight (i - data.getD 0 0 % 16 * 4) +
                b2 * weight (i - data.getD 0 0 % 16 * 4) := by
            omega
          have hTA := (checksum_fold_eq_zero_iff _ hSAlt).mp a8
          have hTB := (checksum_fold_eq_zero_iff _ hSBlt).mp h0
          exact hb2ne (mod_cancel_double _ _ (data.getD i 0) b2
            (weight (i - data.getD 0 0 % 16 * 4))
            (weight_cases (i - data.getD 0 0 % 16 * 4)) hb hb2lt hcomb
            hTA.1 hTB.1)
        · have hout : i - data.getD 0 0 % 16 * 4 < 4 ∨
              (6 ≤ i - data.getD 0 0 % 16 * 4 ∧
                i - data.getD 0 0 % 16 * 4 < 8) := by
            omega
          have heqf := fake_header_set_outside
            (data.take (data.getD 0 0 % 16 * 4))
            ((data.drop (data.getD 0 0 % 16 * 4)).take 8) huh8
            (i - data.getD 0 0 % 16 * 4) b2 hout
          have hfs : checksum_partial_sum 0 (fake_header
                (data.take (data.getD 0 0 % 16 * 4))
                (((data.drop (data.getD 0 0 % 16 * 4)).take 8).set
                  (i - data.getD 0 0 % 16 * 4) b2)) =
              checksum_partial_sum 0 (fake_header
                (data.take (data.getD 0 0 % 16 * 4))
                ((data.drop (data.getD 0 0 % 16 * 4)).take 8)) := by
            rw [heqf]
          have hcomb :
              checksum_partial_sum 0 (fake_header
                  (data.take (data.getD 0 0 % 16 * 4))
                  (((data.drop (data.getD 0 0 % 16 * 4)).take 8).set
                    (i - data.getD 0 0 % 16 * 4) b2)) +
                checksum_partial_sum 0
                  (((data.drop (data.getD 0 0 % 16 * 4)).take 8).set
                    (i - data.getD 0 0 % 16 * 4) b2) +
                checksum_partial_sum 0
                  ((data.drop (data.getD 0 0 % 16 * 4 + 8)).take
                    ((data.drop (data.getD 0 0 % 16 * 4 + 8)).length % 65536)) +
                data.getD i 0 * weight (i - data.getD 0 0 % 16 * 4) =
              checksum_partial_sum 0 (fake_header
                  (data.take (data.getD 0 0 % 16 * 4))
                  ((data.drop (data.getD 0 0 % 16 * 4)).take 8)) +
                checksum_partial_sum 0
                  ((data.drop (data.getD 0 0 % 16 * 4)).take 8) +
                checksum_partial_sum 0
                  ((data.drop (data.getD 0 0 % 16 * 4 + 8)).take
                    ((data.drop (data.getD 0 0 % 16 * 4 + 8)).length % 65536)) +
                b2 * weight (i - data.getD 0 0 % 16 * 4) := by
            omega
          have hTA := (checksum_fold_eq_zero_iff _ hSAlt).mp a8
          have hTB := (checksum_fold_eq_zero_iff _ hSBlt).mp h0
          exact hb2ne (mod_cancel_single _ _ (data.getD i 0) b2
            (weight (i - data.getD 0 0 % 16 * 4))
            (weight_cases (i - data.getD 0 0 % 16 * 4)) hb hb2lt hcomb
            hTA.1 hTB.1)

/-- Claim C8 counterexample: frame44 is accepted by check_packet_header,
and flipping bit 1 of byte 0 -- a single bit inside the 20-byte IP
header, in the IHL field -- yields a frame that check_packet_header also
accepts instead of dropping: the flip turns the header length from 20
into 28 bytes and the frame was built so that both parses carry valid
checksums. -/
theorem c8_counterexample :
    (check_packet_header frame44).isSome = true ∧
    (check_packet_header (flip_bit frame44 0 1)).isSome = true := by
  decide

/-- Claim C8 amended: for every well-formed frame accepted by
check_packet_header, flipping any single bit of the IP header or of the
following 8-byte UDP header, other than the four IHL bits of byte 0,
produces a frame that check_packet_header drops. -/
theorem c8_bit_flip_drops_amended (data : List Nat) (pl : List Nat × Nat)
    (hwf : bytesWF data) (hacc : check_packet_header data = some pl)
    (i k : Nat) (hi8 : i < data.getD 0 0 % 16 * 4 + 8) (hk : k < 8)
    (hv : i = 0 → 4 ≤ k) :
    check_packet_header (flip_bit data i k) = none :=
  c8_bit_flip_drops data pl hwf hacc i k hi8 hk hv

/-- Witness for the amended C8: flipping bit 0 of byte 1 of the accepted
frame frame44 makes the validation drop it. -/
theorem c8_bit_flip_drops_amended_witness :
    check_packet_header (flip_bit frame44 1 0) = none :=
  c8_bit_flip_drops_amended frame44 (frame44.drop 28, 44)
    (by unfold bytesWF; decide) (by decide) 1 0 (by decide) (by decide)
    (by omega)

end Wicked
